import Mathlib

/-
  Verification of the download & artifact pipeline of the roms_downloader
  repository, shallowly embedded in Lean 4.

  The embedding translates `src/services/download_service.py` and
  `src/services/nsz_service.py`.  Python dictionaries (which preserve
  insertion order and update keys in place) are modelled as association
  lists; the file system is modelled as a list of existing paths (with an
  abstract content fingerprint where file bytes matter); wall-clock time
  and the HTTP response are passed in as explicit parameters.
-/

namespace RomsDl

/-! ## Association-list model of a Python dict (insertion ordered) -/

/-- Lookup in a Python dict: `d[k]` / `d.get(k)`. -/
def dictGet {α : Type} : List (String × α) → String → Option α
  | [], _ => none
  | p :: rest, k => if p.1 = k then some p.2 else dictGet rest k

/-- Assignment `d[k] = v`: replaces the value of an existing key in place,
otherwise appends a fresh entry at the end (Python dicts keep insertion
order). -/
def dictSet {α : Type} : List (String × α) → String → α → List (String × α)
  | [], k, v => [(k, v)]
  | p :: rest, k, v => if p.1 = k then (k, v) :: rest else p :: dictSet rest k v

/-- Deletion `del d[k]` (the key is present at most once in a well-formed
dict). -/
def dictDel {α : Type} : List (String × α) → String → List (String × α)
  | [], _ => []
  | p :: rest, k => if p.1 = k then rest else p :: dictDel rest k

/-! ## String helpers mirroring the Python primitives used by the source -/

/-- Characters stripped by Python `str.strip()` (ASCII whitespace). -/
def isPyWs (c : Char) : Bool :=
  c = ' ' || c = '\t' || c = '\n' || c = '\r' || c = '\x0b' || c = '\x0c'

/-- Python `str.strip()`. -/
def pyStrip (s : String) : String :=
  ⟨((s.data.dropWhile isPyWs).reverse.dropWhile isPyWs).reverse⟩

/-- Split a character list at every newline, keeping empty parts:
Python `str.split('\n')`. -/
def splitNl : List Char → List (List Char)
  | [] => [[]]
  | c :: rest =>
    let r := splitNl rest
    if c = '\n' then [] :: r
    else
      match r with
      | [] => [[c]]
      | h :: t => (c :: h) :: t

/-- Python `s.lower()` restricted to ASCII letters (the only characters the
source feeds it). -/
def strLower (s : String) : String := ⟨s.data.map Char.toLower⟩

/-- Python `s.endswith(suffix)`. -/
def strEndsWith (s suffix : String) : Bool := suffix.data.isSuffixOf s.data

/-- Python `str.replace(old, new)` on character lists: every non-overlapping
occurrence is replaced, scanning left to right.  Fuel-based structural
recursion (the fuel is the input length, which bounds the number of
steps, since a non-empty match always consumes at least one character). -/
def listReplaceAux (old new : List Char) : Nat → List Char → List Char
  | _, [] => []
  | 0, cs => cs
  | fuel + 1, c :: rest =>
    if old ≠ [] ∧ old.isPrefixOf (c :: rest) then
      new ++ listReplaceAux old new fuel (List.drop old.length (c :: rest))
    else
      c :: listReplaceAux old new fuel rest

def listReplace (old new cs : List Char) : List Char :=
  listReplaceAux old new cs.length cs

/-- Python `s.replace(old, new)` (the source only calls it with a non-empty
`old`). -/
def pyReplace (s old new : String) : String :=
  ⟨listReplace old.data new.data s.data⟩

/-- Characters after the last path separator: `os.path.basename` for POSIX
paths. -/
def basename (s : String) : String :=
  ⟨(s.data.reverse.takeWhile (fun c => c ≠ '/')).reverse⟩

/-- `os.path.join(dir, name)` for POSIX paths. -/
def pathJoin (dir name : String) : String :=
  if name.data.head? = some '/' then name
  else if dir = "" then name
  else if dir.data.getLast? = some '/' then dir ++ name
  else dir ++ "/" ++ name

/-! ## Task model (`DownloadTask`, download_service.py lines 17-35) -/

structure DownloadTask where
  url : String
  filename : String
  destination : String
  status : String          -- pending, downloading, completed, failed, paused
  progress : ℚ             -- 0.0 to 100.0
  downloadedBytes : Nat
  totalBytes : Nat
  speed : ℚ                -- bytes per second
  errorMessage : String
  startTime : Option Nat   -- wall-clock tick, None until started
  endTime : Option Nat
deriving DecidableEq

/-- `DownloadTask.__init__(url, filename, destination)`. -/
def mkTask (url filename destination : String) : DownloadTask :=
  { url := url, filename := filename, destination := destination,
    status := "pending", progress := 0, downloadedBytes := 0, totalBytes := 0,
    speed := 0, errorMessage := "", startTime := none, endTime := none }

/-- `DownloadTask.get_output_path`: `os.path.join(destination, filename)`. -/
def get_output_path (t : DownloadTask) : String := pathJoin t.destination t.filename

/-! ## Transfer engine: the chunk loop of `_download_worker`
    (download_service.py lines 252-344)

The streamed HTTP body and the wall clock are external inputs, so one loop
iteration is driven by a `ChunkEvent`: the chunk that `iter_content`
yields, whether another actor wrote the task's status just before this
iteration's re-check (pause/cancel are cooperative, observed at iteration
boundaries), and the telemetry oracle (whether at least 0.5 s of wall
clock elapsed since the last tick, and how much). -/

structure ChunkEvent where
  extStatus : Option String  -- concurrent status write observed before the check
  len : Nat                  -- byte length of the chunk (`if chunk:` is `len ≠ 0`)
  tick : Bool                -- `current_time - last_update >= 0.5`
  dt : ℚ                     -- `time_diff` at a tick, in seconds

structure LoopState where
  task : DownloadTask
  bytesSinceUpdate : Nat
  broke : Bool               -- the `break` on a non-downloading status
deriving DecidableEq

/-- One iteration of the `for chunk in response.iter_content(...)` loop
(lines 294-315). -/
def chunkStep (s : LoopState) (ev : ChunkEvent) : LoopState :=
  if s.broke then s
  else
    let t := match ev.extStatus with
             | some st => { s.task with status := st }
             | none => s.task
    if t.status ≠ "downloading" then { s with task := t, broke := true }
    else if ev.len ≠ 0 then
      let t1 := { t with downloadedBytes := t.downloadedBytes + ev.len }
      let bsu := s.bytesSinceUpdate + ev.len
      if ev.tick then
        let t2 := { t1 with
          speed := (bsu : ℚ) / ev.dt,
          progress := if t1.totalBytes > 0
                      then (t1.downloadedBytes : ℚ) / (t1.totalBytes : ℚ) * 100
                      else t1.progress }
        { task := t2, bytesSinceUpdate := 0, broke := false }
      else { task := t1, bytesSinceUpdate := bsu, broke := false }
    else { s with task := t }

/-- The whole chunk loop. -/
def runChunks (s : LoopState) (evs : List ChunkEvent) : LoopState :=
  evs.foldl chunkStep s

/-- The worker's setup before the loop (lines 254-284): mark the task
`downloading`, record the start time, derive `totalBytes` from the
response's Content-Length header (absent ⇒ 0) plus the resume offset, and
seed `downloadedBytes` with the resume offset. -/
def workerInit (task : DownloadTask) (resumePos : Nat) (contentLength : Option Nat)
    (now : Nat) : DownloadTask :=
  let t := { task with status := "downloading", startTime := some now }
  let t := match contentLength with
           | some cl => { t with totalBytes := cl + resumePos }
           | none => { t with totalBytes := 0 }
  { t with downloadedBytes := resumePos }

def initLoopState (t : DownloadTask) : LoopState :=
  { task := t, bytesSinceUpdate := 0, broke := false }

/-- Sum of the byte lengths of a chunk stream. -/
def sumLens (evs : List ChunkEvent) : Nat := (evs.map ChunkEvent.len).sum

/-- Normal end-of-stream handling (lines 317-331).  Returns the updated
task, whether `_handle_post_download` was invoked, and the status events
emitted. -/
def finishDownload (t : DownloadTask) (now : Nat) :
    DownloadTask × Bool × List (String × String) :=
  if t.status = "downloading" then
    if t.totalBytes = 0 ∨ t.downloadedBytes ≥ t.totalBytes then
      ({ t with status := "completed", progress := 100, endTime := some now }, true,
       [("completed", "Download completed: " ++ t.filename)])
    else
      ({ t with status := "failed", errorMessage := "Download incomplete" }, false,
       [("failed", "Download incomplete")])
  else (t, false, [])

/-! ## Scheduler / registry (`DownloadService`, lines 38-52 and 152-352) -/

structure ServiceState where
  downloads : List (String × DownloadTask)   -- `self.downloads`
  activeDownloads : Int                      -- `self.active_downloads`
  maxConcurrentDownloads : Int               -- `self.max_concurrent_downloads`, default 3
  downloadThreads : List String              -- keys of `self.download_threads`
  events : List (String × String × String)   -- `_notify_status` log: (taskId, kind, message)
  fs : List String                           -- paths of files existing on disk
deriving DecidableEq

/-- `DownloadService.__init__` with an initial file system. -/
def initService (fs : List String) : ServiceState :=
  { downloads := [], activeDownloads := 0, maxConcurrentDownloads := 3,
    downloadThreads := [], events := [], fs := fs }

/-- `add_download(url, filename, destination)` (lines 74-97).  `now` is
`int(time.time())`; `os.makedirs(destination, exist_ok=True)` only touches
directories, which the `fs` field (files) does not track. -/
def add_download (s : ServiceState) (url filename destination : String) (now : Nat) :
    String × ServiceState :=
  let taskId := filename ++ "_" ++ toString now
  let task := mkTask url filename destination
  (taskId,
   { s with downloads := dictSet s.downloads taskId task,
            events := s.events ++ [(taskId, "added", "Added download: " ++ filename)] })

/-- `start_download(task_id)` (lines 152-181).  The spawned worker's first
action (lines 254-256) — marking the task `downloading` and stamping
`start_time` — is modelled as happening atomically with the spawn. -/
def start_download (s : ServiceState) (taskId : String) (now : Nat) :
    Bool × ServiceState :=
  match dictGet s.downloads taskId with
  | none => (false, s)
  | some task =>
    if task.status ≠ "pending" then (false, s)
    else if s.activeDownloads ≥ s.maxConcurrentDownloads then (false, s)
    else
      let task1 := { task with status := "downloading", startTime := some now }
      (true,
       { s with downloads := dictSet s.downloads taskId task1,
                downloadThreads := s.downloadThreads ++ [taskId],
                activeDownloads := s.activeDownloads + 1 })

/-- The `for task_id, task in self.downloads.items()` loop of
`start_all_downloads` (lines 185-189), iterating over the snapshot of
keys (`start_download` never adds or removes keys). -/
def startAllLoop (now : Nat) : List String → Nat → ServiceState → Nat × ServiceState
  | [], started, s => (started, s)
  | tid :: rest, started, s =>
    match dictGet s.downloads tid with
    | none => startAllLoop now rest started s
    | some task =>
      if task.status = "pending" ∧ s.activeDownloads < s.maxConcurrentDownloads then
        let r := start_download s tid now
        startAllLoop now rest (if r.1 then started + 1 else started) r.2
      else startAllLoop now rest started s

/-- `start_all_downloads()` (lines 183-190). -/
def start_all_downloads (s : ServiceState) (now : Nat) : Nat × ServiceState :=
  startAllLoop now (s.downloads.map Prod.fst) 0 s

/-- The first registry entry whose status is `pending`, if any (the loop of
`_start_next_pending_download`). -/
def firstPendingId (d : List (String × DownloadTask)) : Option String :=
  (d.find? (fun p => p.2.status == "pending")).map Prod.fst

/-- `_start_next_pending_download()` (lines 346-352): under capacity, call
`start_download` on the first pending task and stop. -/
def start_next_pending_download (s : ServiceState) (now : Nat) : ServiceState :=
  if s.activeDownloads < s.maxConcurrentDownloads then
    match firstPendingId s.downloads with
    | some tid => (start_download s tid now).2
    | none => s
  else s

/-- The `finally` block of `_download_worker` (lines 339-344), reached on
every worker termination — success, short stream, or exception: decrement
`active_downloads`, fan out a progress callback (no service-state effect),
and try to start the next pending download. -/
def worker_finally (s : ServiceState) (now : Nat) : ServiceState :=
  start_next_pending_download { s with activeDownloads := s.activeDownloads - 1 } now

/-- `cancel_download(task_id)` (lines 208-230).  The in-place mutation of
the task object to `failed` (lines 212-214) is unobservable once the entry
is deleted; `os.remove` is modelled as succeeding whenever the path
exists. -/
def cancel_download (s : ServiceState) (taskId : String) : ServiceState :=
  match dictGet s.downloads taskId with
  | none => s
  | some task =>
    let outputPath := get_output_path task
    { s with fs := s.fs.filter (fun p => p != outputPath),
             downloads := dictDel s.downloads taskId,
             downloadThreads := s.downloadThreads.filter (fun t => t != taskId),
             events := s.events ++ [(taskId, "cancelled", "Download cancelled")] }

/-- `get_download_status(task_id)` (lines 232-234). -/
def get_download_status (s : ServiceState) (taskId : String) : Option DownloadTask :=
  dictGet s.downloads taskId

/-! ## Post-processing pipeline (`_handle_post_download`, lines 354-393)

The file system here maps a path to an abstract content fingerprint.  The
outcomes of the two external calls are inputs: `_extract_zip` either
returns the extracted entries or raises with a message, and
`nsz_service.decompress_nsz` either returns its `(success, message)` pair
or raises.  (On the decompression success path the files the nsz library
created are not tracked here; no claim depends on them.) -/

abbrev FileSys : Type := List (String × Nat)

/-- `_handle_post_download(task_id)`.  Returns the updated task, the
updated file system, and the `(kind, message)` status events emitted. -/
def handle_post_download (task : DownloadTask) (fs : FileSys)
    (extractResult : Except String FileSys)
    (nszResult : Except String (Bool × String)) :
    DownloadTask × FileSys × List (String × String) :=
  let outputPath := get_output_path task
  if strEndsWith (strLower outputPath) ".zip" then
    match extractResult with
    | Except.ok extracted =>
        -- extract all entries, then `os.remove(output_path)`
        (task, (fs ++ extracted).filter (fun p => p.1 != outputPath),
         [("extracted", "Extracted ZIP: " ++ task.filename)])
    | Except.error e =>
        ({ task with errorMessage := "ZIP extraction failed: " ++ e }, fs,
         [("extract_failed", "ZIP extraction failed: " ++ e)])
  else if strEndsWith (strLower outputPath) ".nsz" then
    match nszResult with
    | Except.ok (true, msg) =>
        (task, fs,
         [("decompressing", "Decompressing NSZ: " ++ task.filename),
          ("decompressed", "Decompressed NSZ: " ++ msg)])
    | Except.ok (false, msg) =>
        ({ task with errorMessage := "NSZ decompression failed: " ++ msg }, fs,
         [("decompressing", "Decompressing NSZ: " ++ task.filename),
          ("decompress_failed", "NSZ decompression failed: " ++ msg)])
    | Except.error e =>
        ({ task with errorMessage := "NSZ decompression failed: " ++ e }, fs,
         [("decompressing", "Decompressing NSZ: " ++ task.filename),
          ("decompress_failed", "NSZ decompression failed: " ++ e)])
  else (task, fs, [])

/-! ## NSZ service (`nsz_service.py`) -/

/-- Hexadecimal digit (as accepted per character by `int(·, 16)`). -/
def isHexDig (c : Char) : Bool :=
  c.isDigit || ('a' ≤ c && c ≤ 'f') || ('A' ≤ c && c ≤ 'F')

/-- All remaining characters are Python whitespace. -/
def allPyWs (cs : List Char) : Bool := cs.all isPyWs

/-- After one hex digit has been read: further digits, single underscores
between digits, or trailing whitespace, as CPython's base-16 `int` parser
accepts. -/
def hexDigitsTail : List Char → Bool
  | [] => true
  | c :: rest =>
    if isHexDig c then hexDigitsTail rest
    else if c = '_' then
      match rest with
      | d :: rest2 => isHexDig d && hexDigitsTail rest2
      | [] => false
    else isPyWs c && allPyWs rest

/-- A non-empty hex-digit run (underscores allowed between digits, trailing
whitespace allowed). -/
def hexDigitsRun : List Char → Bool
  | [] => false
  | c :: rest => isHexDig c && hexDigitsTail rest

/-- The part after an optional sign: an optional `0x`/`0X` prefix (an
underscore may directly follow the prefix), then a hex-digit run. -/
def pyIntBody16 : List Char → Bool
  | '0' :: c :: rest =>
    if c = 'x' || c = 'X' then
      match rest with
      | '_' :: rest2 => hexDigitsRun rest2
      | _ => hexDigitsRun rest
    else hexDigitsRun ('0' :: c :: rest)
  | cs => hexDigitsRun cs

/-- Whether CPython's `int(s, 16)` succeeds: optional surrounding
whitespace, optional sign, optional `0x`/`0X` prefix, hex digits with
single underscores between digits. -/
def pyIntValid16 (s : String) : Bool :=
  match s.data.dropWhile isPyWs with
  | '+' :: rest => pyIntBody16 rest
  | '-' :: rest => pyIntBody16 rest
  | cs => pyIntBody16 cs

/-- The part of a line after its first `=`: `line.split('=', 1)[1]`. -/
def afterChar (c : Char) : List Char → List Char
  | [] => []
  | x :: xs => if x = c then xs else afterChar c xs

def afterFirstEq (s : String) : String := ⟨afterChar '=' s.data⟩

/-- Python `c in s` membership test for a character. -/
def listContains (cs : List Char) (c : Char) : Bool := cs.any (fun x => x = c)

/-- The per-line test of `_validate_keys_file` (nsz_service.py lines
81-90): strip the line; require an `=` and length > 10; split at the first
`=`; require the value part to have exactly 32 characters and to be
accepted by `int(value, 16)`. -/
def keyLineValid (line : List Char) : Bool :=
  let l := pyStrip ⟨line⟩
  if listContains l.data '=' && decide (l.length > 10) then
    let v := afterFirstEq l
    decide (v.length = 32) && pyIntValid16 v
  else false

/-- `_validate_keys_file(keys_path)` (lines 63-95).  The input is the file
content when the read succeeds, `none` when any exception occurs (which
returns `False`).  The source counts the valid lines and returns
`valid_lines > 0`, i.e. whether any line is valid. -/
def validate_keys_file : Option String → Bool
  | none => false
  | some content => (splitNl (pyStrip content).data).any keyLineValid

/-- Modelled from the claim's words, for comparison with
`validate_keys_file`: some line (of the same line splitting) is a
`name=value` pair whose value is exactly 32 hexadecimal characters. -/
def keyLineValid_claim (line : List Char) : Bool :=
  let l := pyStrip ⟨line⟩
  listContains l.data '=' && (let v := afterFirstEq l
                              decide (v.length = 32) && v.data.all isHexDig)

def validate_keys_claim : Option String → Bool
  | none => false
  | some content => (splitNl (pyStrip content).data).any keyLineValid_claim

/-- Process-wide state touched by `decompress_nsz`: the working directory
(`os.getcwd`/`os.chdir`) and `sys.argv`. -/
structure ProcState where
  cwd : String
  argv : List String
deriving DecidableEq

/-- `', '.join(files)`. -/
def joinComma : List String → String
  | [] => ""
  | [x] => x
  | x :: xs => x ++ ", " ++ joinComma xs

/-- The output check after the decompression transform returned
(nsz_service.py lines 193-206).  `listing` is `os.listdir(output_dir)`,
whose entries are taken to be files. -/
def nsz_check_output (nszFilePath outputDir : String) (listing : List String) :
    Bool × String :=
  let nszFilename := basename nszFilePath
  let expectedNsp := pyReplace nszFilename ".nsz" ".nsp"
  if listing.contains expectedNsp then
    (true, "Successfully decompressed to " ++ pathJoin outputDir expectedNsp)
  else
    let nspFiles := listing.filter (fun f => strEndsWith f ".nsp")
    if nspFiles.isEmpty then
      (false, "Decompression completed but no NSP files found")
    else
      (true, "Successfully decompressed. Created: " ++ joinComma nspFiles)

/-- `decompress_nsz(nsz_file_path, output_dir)` (lines 151-213).
`isAvail` is `is_available()`, `srcIsFile` is
`os.path.isfile(nsz_file_path)`, and `transform` is the outcome of the
`decompress(...)` library call: the resulting directory listing, or the
raised exception's text.  The try/finally restores the working directory
and `sys.argv` on every path out of the try block. -/
def decompress_nsz (isAvail srcIsFile : Bool) (nszFilePath outputDir : String)
    (transform : Except String (List String)) (proc : ProcState) :
    (Bool × String) × ProcState :=
  if isAvail = false then
    ((false, "NSZ service not available. Check nsz library and keys file."), proc)
  else if srcIsFile = false then
    ((false, "NSZ file not found: " ++ nszFilePath), proc)
  else if strEndsWith (strLower nszFilePath) ".nsz" = false then
    ((false, "File is not an NSZ file"), proc)
  else
    let originalCwd := proc.cwd
    let originalArgv := proc.argv
    let procIn : ProcState := { proc with cwd := outputDir }  -- os.chdir(output_dir)
    match transform with
    | Except.error e =>
        ((false, "NSZ decompression failed: " ++ e),
         { procIn with cwd := originalCwd, argv := originalArgv })
    | Except.ok listing =>
        (nsz_check_output nszFilePath outputDir listing,
         { procIn with cwd := originalCwd, argv := originalArgv })

/-- Modelled from the claim's words, for comparison with the success
reported by `decompress_nsz`: the source filename with its (case-
insensitively matched) `.nsz` suffix replaced by `.nsp` is present, or
some `.nsp` file is present. -/
def decompress_success_claim (nszFilename : String) (listing : List String) : Bool :=
  let suffixReplaced : String := ⟨nszFilename.data.take (nszFilename.length - 4)⟩ ++ ".nsp"
  listing.contains suffixReplaced || listing.any (fun f => strEndsWith f ".nsp")

/-! ## Derived observations used by the claims -/

/-- Number of registry entries with the given status (the per-status
counters of `get_download_stats`). -/
def countStatus (d : List (String × DownloadTask)) (st : String) : Nat :=
  (d.filter (fun p => p.2.status == st)).length

/-- Whether some registry entry is pending. -/
def anyPending (d : List (String × DownloadTask)) : Bool :=
  d.any (fun p => p.2.status == "pending")

/-- The per-line test of the key-file validation as the code actually
behaves: the `len(line) > 10` guard dropped (it is implied by a
32-character value), keeping the real acceptance test of `int(value, 16)`. -/
def keyLineValid_amended (line : List Char) : Bool :=
  let l := pyStrip ⟨line⟩
  listContains l.data '=' && (let v := afterFirstEq l
                              decide (v.length = 32) && pyIntValid16 v)

/-- Amended key-file validation predicate: readable, and some line is a
`name=value` pair whose 32-character value is accepted by the base-16
integer parser (which also admits a sign, a `0x`/`0X` prefix, single
underscores between digits, and surrounding whitespace). -/
def validate_keys_amended : Option String → Bool
  | none => false
  | some content => (splitNl (pyStrip content).data).any keyLineValid_amended

/-! ## Concrete inputs used by witnesses and counterexamples -/

def tC2w : DownloadTask :=
  { mkTask "u" "rom.bin" "/dl" with status := "downloading", totalBytes := 0,
                                    downloadedBytes := 3 }

def tC2c : DownloadTask :=
  { mkTask "u" "rom.bin" "/dl" with status := "downloading", totalBytes := 10,
                                    downloadedBytes := 5 }

def sC3w : ServiceState :=
  { downloads := [("t", mkTask "u" "f" "/d")], activeDownloads := 1,
    maxConcurrentDownloads := 1, downloadThreads := [], events := [], fs := [] }

def sC4w : ServiceState :=
  { downloads := [("a", { mkTask "u" "a.bin" "/d" with status := "completed" }),
                  ("b", mkTask "u" "b.bin" "/d")],
    activeDownloads := 1, maxConcurrentDownloads := 3, downloadThreads := [],
    events := [], fs := [] }

def tC5w : DownloadTask := { mkTask "u" "game.zip" "/dl" with status := "completed" }

def fsC5w : FileSys := [("/dl/game.zip", 42)]

def tC6w : DownloadTask := { mkTask "u" "game.bin" "/dl" with status := "completed" }

def sC6c : ServiceState :=
  { downloads := [("t1", tC6w)], activeDownloads := 0, maxConcurrentDownloads := 3,
    downloadThreads := [], events := [], fs := ["/dl/game.bin"] }

/-! ## Lemmas about the chunk loop -/

theorem chunkStep_downloadedBytes (s : LoopState) (ev : ChunkEvent) :
    (chunkStep s ev).task.downloadedBytes = s.task.downloadedBytes ∨
    (chunkStep s ev).task.downloadedBytes = s.task.downloadedBytes + ev.len := by
  rcases s with ⟨t, bsu, broke⟩
  rcases ev with ⟨ext, len, tick, dt⟩
  cases broke <;> cases ext <;> cases tick <;>
    simp only [chunkStep] <;> split_ifs <;> simp

theorem chunkStep_totalBytes (s : LoopState) (ev : ChunkEvent) :
    (chunkStep s ev).task.totalBytes = s.task.totalBytes := by
  rcases s with ⟨t, bsu, broke⟩
  rcases ev with ⟨ext, len, tick, dt⟩
  cases broke <;> cases ext <;> cases tick <;>
    simp only [chunkStep] <;> split_ifs <;> simp

theorem runChunks_downloadedBytes_le (s : LoopState) (l : List ChunkEvent) :
    s.task.downloadedBytes ≤ (runChunks s l).task.downloadedBytes := by
  induction l generalizing s with
  | nil => simp [runChunks]
  | cons ev rest ih =>
    have h1 := chunkStep_downloadedBytes s ev
    have h2 := ih (chunkStep s ev)
    simp only [runChunks, List.foldl_cons] at *
    rcases h1 with h1 | h1 <;> omega

theorem runChunks_downloadedBytes_le_sum (s : LoopState) (l : List ChunkEvent) :
    (runChunks s l).task.downloadedBytes ≤ s.task.downloadedBytes + sumLens l := by
  induction l generalizing s with
  | nil => simp [runChunks, sumLens]
  | cons ev rest ih =>
    have h1 := chunkStep_downloadedBytes s ev
    have h2 := ih (chunkStep s ev)
    simp only [runChunks, List.foldl_cons, sumLens, List.map_cons, List.sum_cons] at *
    rcases h1 with h1 | h1 <;> omega

theorem runChunks_totalBytes (s : LoopState) (l : List ChunkEvent) :
    (runChunks s l).task.totalBytes = s.task.totalBytes := by
  induction l generalizing s with
  | nil => simp [runChunks]
  | cons ev rest ih =>
    have h1 := chunkStep_totalBytes s ev
    have h2 := ih (chunkStep s ev)
    simp only [runChunks, List.foldl_cons] at *
    omega

theorem sumLens_append (l1 l2 : List ChunkEvent) :
    sumLens (l1 ++ l2) = sumLens l1 + sumLens l2 := by
  simp [sumLens]

/-! ## Claim theorems C1 and C2 -/

/-- Claim C1: during the chunk loop of `_download_worker`, every step
leaves `downloadedBytes` unchanged or adds exactly the chunk's length, so
`downloadedBytes` is monotonically non-decreasing while the task is
downloading; the loop never changes `totalBytes`; and when the response
declares a Content-Length (so `totalBytes` is set to it plus the resume
offset) and the body delivers at most Content-Length bytes, at no point of
the loop does `downloadedBytes` exceed `totalBytes`. -/
theorem spec_C1_downloaded_bytes_monotone_and_bounded :
    (∀ (s : LoopState) (ev : ChunkEvent),
        (chunkStep s ev).task.downloadedBytes = s.task.downloadedBytes ∨
        (chunkStep s ev).task.downloadedBytes = s.task.downloadedBytes + ev.len)
    ∧ (∀ (s : LoopState) (l1 l2 : List ChunkEvent),
        (runChunks s l1).task.downloadedBytes ≤ (runChunks s (l1 ++ l2)).task.downloadedBytes)
    ∧ (∀ (s : LoopState) (l : List ChunkEvent),
        (runChunks s l).task.totalBytes = s.task.totalBytes)
    ∧ (∀ (task : DownloadTask) (resumePos cl now : Nat) (l1 l2 : List ChunkEvent),
        sumLens (l1 ++ l2) ≤ cl →
        (runChunks (initLoopState (workerInit task resumePos (some cl) now)) l1).task.downloadedBytes
          ≤ (workerInit task resumePos (some cl) now).totalBytes) := by
  refine ⟨chunkStep_downloadedBytes, ?_, runChunks_totalBytes, ?_⟩
  · intro s l1 l2
    have h := runChunks_downloadedBytes_le (runChunks s l1) l2
    simpa only [runChunks, List.foldl_append] using h
  · intro task resumePos cl now l1 l2 hsum
    have h1 := runChunks_downloadedBytes_le_sum
      (initLoopState (workerInit task resumePos (some cl) now)) l1
    have h2 : (initLoopState (workerInit task resumePos (some cl) now)).task.downloadedBytes
        = resumePos := rfl
    have h3 : (workerInit task resumePos (some cl) now).totalBytes = cl + resumePos := rfl
    have h4 : sumLens l1 ≤ cl := by
      have := sumLens_append l1 l2
      omega
    omega

/-- Claim C1 witness at a concrete stream. -/
theorem spec_C1_witness :
    sumLens ([⟨none, 3, false, 0⟩] ++ []) ≤ 5
    ∧ (runChunks (initLoopState (workerInit (mkTask "u" "f.bin" "/d") 2 (some 5) 0))
         [⟨none, 3, false, 0⟩]).task.downloadedBytes
        ≤ (workerInit (mkTask "u" "f.bin" "/d") 2 (some 5) 0).totalBytes :=
  ⟨by decide,
   spec_C1_downloaded_bytes_monotone_and_bounded.2.2.2
     (mkTask "u" "f.bin" "/d") 2 5 0 [⟨none, 3, false, 0⟩] [] (by decide)⟩

/-- Claim C2 counterexample: when the stream ends short the task is marked
failed, but the recorded error message is "Download incomplete" (capital
D), not the claimed "download incomplete". -/
theorem spec_C2_counterexample :
    (finishDownload tC2c 7).1.status = "failed"
    ∧ (finishDownload tC2c 7).1.errorMessage = "Download incomplete"
    ∧ ¬ ((finishDownload tC2c 7).1.errorMessage = "download incomplete") := by
  refine ⟨rfl, rfl, ?_⟩
  decide

/-- Claim C2 (amended): at normal end-of-stream with the task still
downloading, the task is marked completed — with `endTime` set and
post-processing invoked — exactly when `totalBytes = 0` or
`downloadedBytes ≥ totalBytes`; otherwise it is marked failed with error
message "Download incomplete" (capital D, unlike the claimed lowercase
message) and post-processing is not invoked. -/
theorem spec_C2_end_of_stream (t : DownloadTask) (now : Nat)
    (h : t.status = "downloading") :
    ((finishDownload t now).1.status = "completed"
      ↔ (t.totalBytes = 0 ∨ t.downloadedBytes ≥ t.totalBytes))
    ∧ ((t.totalBytes = 0 ∨ t.downloadedBytes ≥ t.totalBytes) →
        (finishDownload t now).1.endTime = some now ∧ (finishDownload t now).2.1 = true)
    ∧ (¬ (t.totalBytes = 0 ∨ t.downloadedBytes ≥ t.totalBytes) →
        (finishDownload t now).1.status = "failed"
        ∧ (finishDownload t now).1.errorMessage = "Download incomplete"
        ∧ (finishDownload t now).2.1 = false) := by
  unfold finishDownload
  rw [if_pos h]
  by_cases hc : t.totalBytes = 0 ∨ t.downloadedBytes ≥ t.totalBytes
  · rw [if_pos hc]
    refine ⟨by simp [hc], fun _ => ⟨rfl, rfl⟩, fun hn => absurd hc hn⟩
  · rw [if_neg hc]
    refine ⟨⟨fun hst => ?_, fun hcc => absurd hcc hc⟩, fun hcc => absurd hcc hc,
            fun _ => ⟨rfl, rfl, rfl⟩⟩
    exact absurd (show ("failed" : String) = "completed" from hst) (by decide)

/-- Claim C2 witness at a concrete completed download. -/
theorem spec_C2_witness :
    (finishDownload tC2w 7).1.status = "completed"
      ↔ (tC2w.totalBytes = 0 ∨ tC2w.downloadedBytes ≥ tC2w.totalBytes) :=
  (spec_C2_end_of_stream tC2w 7 rfl).1

/-! ## Lemmas about the dict model and the scheduler -/

theorem dictGet_of_mem_nodup {α : Type} {d : List (String × α)} {k : String} {v : α}
    (hnodup : (d.map Prod.fst).Nodup) (hmem : (k, v) ∈ d) :
    dictGet d k = some v := by
  induction d with
  | nil => cases hmem
  | cons p rest ih =>
    rcases List.mem_cons.1 hmem with h | h
    · subst h
      simp [dictGet]
    · have hk : k ∈ rest.map Prod.fst := List.mem_map_of_mem Prod.fst h
      have hne : p.1 ≠ k := by
        intro he
        have := (List.nodup_cons.1 hnodup).1
        rw [he] at this
        exact this hk
      rw [dictGet, if_neg hne]
      exact ih (List.nodup_cons.1 hnodup).2 h

theorem dictGet_none_of_not_mem {α : Type} {d : List (String × α)} {k : String}
    (h : k ∉ d.map Prod.fst) : dictGet d k = none := by
  induction d with
  | nil => rfl
  | cons p rest ih =>
    simp only [List.map_cons, List.mem_cons, not_or] at h
    rw [dictGet, if_neg (fun he => h.1 he.symm)]
    exact ih h.2

theorem dictGet_dictDel_self {α : Type} {d : List (String × α)} {k : String}
    (hnodup : (d.map Prod.fst).Nodup) :
    dictGet (dictDel d k) k = none := by
  induction d with
  | nil => rfl
  | cons p rest ih =>
    by_cases he : p.1 = k
    · rw [dictDel, if_pos he]
      apply dictGet_none_of_not_mem
      rw [← he]
      exact (List.nodup_cons.1 hnodup).1
    · rw [dictDel, if_neg he, dictGet, if_neg he]
      exact ih (List.nodup_cons.1 hnodup).2

theorem countStatus_dictSet {d : List (String × DownloadTask)} {tid : String}
    {task : DownloadTask} (v : DownloadTask) (st : String)
    (hget : dictGet d tid = some task) :
    countStatus (dictSet d tid v) st + (if task.status == st then 1 else 0)
      = countStatus d st + (if v.status == st then 1 else 0) := by
  induction d with
  | nil => cases hget
  | cons p rest ih =>
    by_cases he : p.1 = tid
    · rw [dictGet, if_pos he] at hget
      have htask : p.2 = task := Option.some.inj hget
      rw [dictSet, if_pos he]
      simp only [countStatus, List.filter_cons, htask]
      by_cases h1 : task.status = st <;> by_cases h2 : v.status = st <;>
        simp [h1, h2, beq_iff_eq]
    · rw [dictGet, if_neg he] at hget
      rw [dictSet, if_neg he]
      have ihh := ih hget
      simp only [countStatus, List.filter_cons]
      simp only [countStatus] at ihh
      by_cases hp : p.2.status = st <;> simp only [hp, beq_iff_eq] at ihh ⊢ <;>
        simp [hp] <;> omega

theorem keys_dictSet {α : Type} {d : List (String × α)} {tid : String}
    {task : α} (v : α) (hget : dictGet d tid = some task) :
    (dictSet d tid v).map Prod.fst = d.map Prod.fst := by
  induction d with
  | nil => cases hget
  | cons p rest ih =>
    by_cases he : p.1 = tid
    · rw [dictSet, if_pos he]
      simp [he]
    · rw [dictGet, if_neg he] at hget
      rw [dictSet, if_neg he]
      simp [ih hget]

theorem firstPendingId_none_iff (d : List (String × DownloadTask)) :
    firstPendingId d = none ↔ anyPending d = false := by
  simp only [firstPendingId, anyPending, Option.map_eq_none', List.find?_eq_none,
             List.any_eq_false]

theorem firstPendingId_some {d : List (String × DownloadTask)} {tid : String}
    (hnodup : (d.map Prod.fst).Nodup) (h : firstPendingId d = some tid) :
    ∃ task, dictGet d tid = some task ∧ task.status = "pending" := by
  simp only [firstPendingId, Option.map_eq_some'] at h
  obtain ⟨p, hfind, hfst⟩ := h
  have hmem : p ∈ d := List.mem_of_find?_eq_some hfind
  have hpend : (p.2.status == "pending") = true := by
    have hq := List.find?_some hfind
    simpa using hq
  subst hfst
  exact ⟨p.2, dictGet_of_mem_nodup hnodup (by simpa using hmem), by simpa using hpend⟩

theorem startAllLoop_at_capacity (now : Nat) (tids : List String) (started : Nat)
    (s : ServiceState) (h : s.activeDownloads ≥ s.maxConcurrentDownloads) :
    startAllLoop now tids started s = (started, s) := by
  induction tids with
  | nil => rfl
  | cons tid rest ih =>
    rw [startAllLoop]
    cases dictGet s.downloads tid with
    | none => exact ih
    | some task =>
      dsimp only
      rw [if_neg (fun hc => absurd hc.2 (not_lt.2 h))]
      exact ih

/-! ## Claim theorems C3 and C4 -/

/-- Claim C3: `start_download` returns false and leaves the whole service
state unchanged whenever the task is missing, its status is not pending,
or the concurrency limit is reached; and `start_all_downloads` called when
`active_downloads` equals the limit starts nothing, returning 0 with the
state unchanged. -/
theorem spec_C3_start_guards (s : ServiceState) (tid : String) (now : Nat) :
    ((dictGet s.downloads tid = none
      ∨ (∀ task, dictGet s.downloads tid = some task → task.status ≠ "pending")
      ∨ s.activeDownloads ≥ s.maxConcurrentDownloads) →
      start_download s tid now = (false, s))
    ∧ (s.activeDownloads = s.maxConcurrentDownloads →
       start_all_downloads s now = (0, s)) := by
  constructor
  · intro h
    unfold start_download
    cases hget : dictGet s.downloads tid with
    | none => rfl
    | some task =>
      dsimp only
      rcases h with h | h | h
      · rw [hget] at h; cases h
      · rw [if_pos (h task hget)]
      · by_cases hpend : task.status = "pending"
        · rw [if_neg (fun hne => hne hpend), if_pos h]
        · rw [if_pos hpend]
  · intro h
    unfold start_all_downloads
    exact startAllLoop_at_capacity now _ 0 s (ge_of_eq h)

/-- Claim C3 witness: a pending task with the limit already reached. -/
theorem spec_C3_witness :
    start_download sC3w "t" 0 = (false, sC3w)
    ∧ start_all_downloads sC3w 0 = (0, sC3w) :=
  ⟨(spec_C3_start_guards sC3w "t" 0).1 (Or.inr (Or.inr (by decide))),
   (spec_C3_start_guards sC3w "t" 0).2 (by decide)⟩

/-- Claim C4: the worker's `finally` block decrements `active_downloads`
exactly once and then starts at most one pending task; exactly one pending
task moves to downloading — and the active counter goes back up by one —
precisely when some pending task exists and the decremented counter is
under the limit; the set of registry keys is unchanged. -/
theorem spec_C4_worker_finally (s : ServiceState) (now : Nat)
    (hnodup : (s.downloads.map Prod.fst).Nodup) :
    (worker_finally s now).activeDownloads
      = s.activeDownloads - 1
        + (if s.activeDownloads - 1 < s.maxConcurrentDownloads ∧ anyPending s.downloads = true
           then 1 else 0)
    ∧ countStatus (worker_finally s now).downloads "pending"
        + (if s.activeDownloads - 1 < s.maxConcurrentDownloads ∧ anyPending s.downloads = true
           then 1 else 0)
      = countStatus s.downloads "pending"
    ∧ countStatus (worker_finally s now).downloads "downloading"
      = countStatus s.downloads "downloading"
        + (if s.activeDownloads - 1 < s.maxConcurrentDownloads ∧ anyPending s.downloads = true
           then 1 else 0)
    ∧ (worker_finally s now).downloads.map Prod.fst = s.downloads.map Prod.fst := by
  unfold worker_finally start_next_pending_download
  by_cases hcap : s.activeDownloads - 1 < s.maxConcurrentDownloads
  · rw [if_pos hcap]
    cases hfp : firstPendingId s.downloads with
    | none =>
      have hnp : anyPending s.downloads = false := (firstPendingId_none_iff _).1 hfp
      have hcond : ¬(s.activeDownloads - 1 < s.maxConcurrentDownloads
          ∧ anyPending s.downloads = true) := fun hc => by rw [hnp] at hc; cases hc.2
      dsimp only
      simp [hcond]
    | some tid =>
      have hap : anyPending s.downloads = true := by
        cases hv : anyPending s.downloads with
        | true => rfl
        | false => rw [(firstPendingId_none_iff _).2 hv] at hfp; cases hfp
      obtain ⟨task, hget, hpend⟩ := firstPendingId_some hnodup hfp
      rw [if_pos ⟨hcap, hap⟩, if_pos ⟨hcap, hap⟩]
      dsimp only
      unfold start_download
      rw [hget]
      dsimp only
      rw [if_neg (fun hc => hc hpend), if_neg (not_le.2 hcap)]
      have hkeys := keys_dictSet
        { task with status := "downloading", startTime := some now } hget
      refine ⟨rfl, ?_, ?_, by dsimp only; exact hkeys⟩
      · have hc := countStatus_dictSet
          { task with status := "downloading", startTime := some now } "pending" hget
        rw [hpend] at hc
        simp at hc
        dsimp only
        omega
      · have hc := countStatus_dictSet
          { task with status := "downloading", startTime := some now } "downloading" hget
        rw [hpend] at hc
        simp at hc
        dsimp only
        omega
  · rw [if_neg hcap]
    have hcond : ¬(s.activeDownloads - 1 < s.maxConcurrentDownloads
        ∧ anyPending s.downloads = true) := fun hc => absurd hc.1 hcap
    dsimp only
    simp [hcond]

/-! ## Claim theorems C5, C6, C7 -/

/-- Claim C5: for a task whose transfer reached status completed, a failure
of ZIP extraction or of NSZ decompression (returned failure or raised
exception) leaves the task's status equal to completed, only sets its
error message and emits an extract_failed resp. decompress_failed event,
and preserves the downloaded file's bytes on disk. -/
theorem spec_C5_post_download_failure (task : DownloadTask) (fs : FileSys)
    (extractResult : Except String FileSys)
    (nszResult : Except String (Bool × String))
    (hc : task.status = "completed") :
    (∀ e, strEndsWith (strLower (get_output_path task)) ".zip" = true →
       extractResult = Except.error e →
       (handle_post_download task fs extractResult nszResult).1.status = "completed"
       ∧ (handle_post_download task fs extractResult nszResult).1.errorMessage
           = "ZIP extraction failed: " ++ e
       ∧ (handle_post_download task fs extractResult nszResult).2.1 = fs
       ∧ ((handle_post_download task fs extractResult nszResult).2.2.map Prod.fst).contains
           "extract_failed" = true)
    ∧ (∀ msg, strEndsWith (strLower (get_output_path task)) ".zip" = false →
       strEndsWith (strLower (get_output_path task)) ".nsz" = true →
       nszResult = Except.ok (false, msg) →
       (handle_post_download task fs extractResult nszResult).1.status = "completed"
       ∧ (handle_post_download task fs extractResult nszResult).1.errorMessage
           = "NSZ decompression failed: " ++ msg
       ∧ (handle_post_download task fs extractResult nszResult).2.1 = fs
       ∧ ((handle_post_download task fs extractResult nszResult).2.2.map Prod.fst).contains
           "decompress_failed" = true)
    ∧ (∀ e, strEndsWith (strLower (get_output_path task)) ".zip" = false →
       strEndsWith (strLower (get_output_path task)) ".nsz" = true →
       nszResult = Except.error e →
       (handle_post_download task fs extractResult nszResult).1.status = "completed"
       ∧ (handle_post_download task fs extractResult nszResult).1.errorMessage
           = "NSZ decompression failed: " ++ e
       ∧ (handle_post_download task fs extractResult nszResult).2.1 = fs
       ∧ ((handle_post_download task fs extractResult nszResult).2.2.map Prod.fst).contains
           "decompress_failed" = true) := by
  refine ⟨?_, ?_, ?_⟩
  · intro e hzip herr
    subst herr
    unfold handle_post_download
    rw [if_pos hzip]
    exact ⟨hc, rfl, rfl, rfl⟩
  · intro msg hzip hnsz hok
    subst hok
    unfold handle_post_download
    rw [if_neg (by rw [hzip]; exact fun h => Bool.noConfusion h), if_pos hnsz]
    exact ⟨hc, rfl, rfl, rfl⟩
  · intro e hzip hnsz herr
    subst herr
    unfold handle_post_download
    rw [if_neg (by rw [hzip]; exact fun h => Bool.noConfusion h), if_pos hnsz]
    exact ⟨hc, rfl, rfl, rfl⟩

/-- Claim C5 witness: a completed ZIP download whose extraction raises. -/
theorem spec_C5_witness :
    (handle_post_download tC5w fsC5w (Except.error "bad zip")
       (Except.ok (true, "m"))).1.status = "completed"
    ∧ (handle_post_download tC5w fsC5w (Except.error "bad zip")
         (Except.ok (true, "m"))).1.errorMessage = "ZIP extraction failed: " ++ "bad zip"
    ∧ (handle_post_download tC5w fsC5w (Except.error "bad zip")
         (Except.ok (true, "m"))).2.1 = fsC5w
    ∧ ((handle_post_download tC5w fsC5w (Except.error "bad zip")
          (Except.ok (true, "m"))).2.2.map Prod.fst).contains "extract_failed" = true :=
  (spec_C5_post_download_failure tC5w fsC5w (Except.error "bad zip")
    (Except.ok (true, "m")) rfl).1 "bad zip" (by decide) rfl

/-- Claim C6 counterexample: cancelling a task in the terminal success
state "completed" still deletes its output file from disk, contradicting
the claim that the file is deleted only when the task is not in a terminal
success state. -/
theorem spec_C6_counterexample :
    (get_download_status sC6c "t1").map DownloadTask.status = some "completed"
    ∧ sC6c.fs.contains (get_output_path tC6w) = true
    ∧ (cancel_download sC6c "t1").fs.contains (get_output_path tC6w) = false := by
  decide

theorem contains_filter_ne (l : List String) (p : String) :
    (l.filter (fun q => q != p)).contains p = false := by
  induction l with
  | nil => rfl
  | cons x xs ih =>
    by_cases hx : x = p
    · simp [List.filter_cons, hx, ih]
    · simp [List.filter_cons, hx, List.contains_cons, ih]
      exact fun h => hx h.symm

/-- Claim C6 (amended): for every task present in the registry,
`cancel_download` removes the registry entry (lookups return absent) and
deletes the task's output file from disk — unconditionally, whatever the
task's status, not only outside terminal success states. -/
theorem spec_C6_cancel (s : ServiceState) (tid : String) (task : DownloadTask)
    (hnodup : (s.downloads.map Prod.fst).Nodup)
    (hget : dictGet s.downloads tid = some task) :
    get_download_status (cancel_download s tid) tid = none
    ∧ (cancel_download s tid).fs.contains (get_output_path task) = false := by
  unfold cancel_download
  rw [hget]
  dsimp only
  exact ⟨dictGet_dictDel_self hnodup, contains_filter_ne _ _⟩

/-- Claim C6 witness: cancelling the single registered task. -/
theorem spec_C6_witness :
    get_download_status (cancel_download sC6c "t1") "t1" = none
    ∧ (cancel_download sC6c "t1").fs.contains (get_output_path tC6w) = false :=
  spec_C6_cancel sC6c "t1" tC6w (by decide) (by decide)

/-- Claim C7 is false of the code (a code bug: the docstring of
`add_download` promises a unique task id): two `add_download` calls with
the same filename during the same epoch second produce the same task id,
and the second call overwrites the first task's registry entry, leaving a
single entry holding the second task. -/
theorem spec_C7_id_collision :
    (add_download (initService []) "u1" "game.zip" "/dl" 1000).1
      = (add_download (add_download (initService []) "u1" "game.zip" "/dl" 1000).2
           "u2" "game.zip" "/dl" 1000).1
    ∧ (add_download (add_download (initService []) "u1" "game.zip" "/dl" 1000).2
         "u2" "game.zip" "/dl" 1000).2.downloads.map Prod.fst = ["game.zip_1000"]
    ∧ dictGet (add_download (add_download (initService []) "u1" "game.zip" "/dl" 1000).2
         "u2" "game.zip" "/dl" 1000).2.downloads "game.zip_1000"
        = some (mkTask "u2" "game.zip" "/dl") := by
  decide

/-- Claim C4 witness: one worker finishing with one pending task queued and
capacity available. -/
theorem spec_C4_witness :
    (worker_finally sC4w 5).activeDownloads
      = sC4w.activeDownloads - 1
        + (if sC4w.activeDownloads - 1 < sC4w.maxConcurrentDownloads
              ∧ anyPending sC4w.downloads = true
           then 1 else 0) :=
  (spec_C4_worker_finally sC4w 5 (by decide)).1

/-! ## Lemmas for the key-file validation (C8) -/

theorem afterChar_length {c : Char} {cs : List Char}
    (h : listContains cs c = true) :
    (afterChar c cs).length + 1 ≤ cs.length := by
  induction cs with
  | nil => cases h
  | cons x xs ih =>
    by_cases hx : x = c
    · rw [afterChar, if_pos hx]
      simp
    · rw [afterChar, if_neg hx]
      have hxs : listContains xs c = true := by
        simpa [listContains, hx] using h
      have := ih hxs
      simp only [List.length_cons]
      omega

theorem keyLineValid_eq_amended (line : List Char) :
    keyLineValid line = keyLineValid_amended line := by
  simp only [keyLineValid, keyLineValid_amended]
  by_cases hc : listContains (pyStrip ⟨line⟩).data '=' = true
  · by_cases h10 : (pyStrip ⟨line⟩).length > 10
    · rw [if_pos (by rw [hc]; simpa using h10)]
      simp [hc]
    · rw [if_neg (by simp [h10])]
      have h32 : ¬ (afterFirstEq (pyStrip ⟨line⟩)).length = 32 := by
        intro h32
        have hle := afterChar_length hc
        have hdl : (pyStrip ⟨line⟩).length = (pyStrip ⟨line⟩).data.length := rfl
        have hal : (afterFirstEq (pyStrip ⟨line⟩)).length
            = (afterChar '=' (pyStrip ⟨line⟩).data).length := rfl
        omega
      simp [hc, h32]
  · rw [if_neg (by simp [hc])]
    simp [hc]

/-! ## Claim theorems C8, C9, C10 -/

/-- Claim C8 counterexample: a key file whose only line's 32-character
value starts with "0x" (so it is not 32 hexadecimal characters) is
accepted by the code's validation, because Python `int(value, 16)` accepts
a `0x` prefix. -/
theorem spec_C8_counterexample :
    validate_keys_file (some "key=0x0123456789abcdef0123456789abcd") = true
    ∧ validate_keys_claim (some "key=0x0123456789abcdef0123456789abcd") = false := by
  constructor
  · decide
  · decide

/-- Claim C8 (amended): key-file validation returns true if and only if
the file can be read and at least one of its lines is a `name=value` pair
whose value is a 32-character token accepted by the base-16 integer
parser — which admits, besides 32 plain hex digits, an optional sign, a
`0x`/`0X` prefix, single underscores between digits and surrounding
whitespace; any read failure or absence of such a line yields false.  (The
code's extra `len(line) > 10` guard is implied by a 32-character value.) -/
theorem spec_C8_validate_keys (content : Option String) :
    validate_keys_file content = validate_keys_amended content := by
  cases content with
  | none => rfl
  | some c =>
    simp only [validate_keys_file, validate_keys_amended]
    rw [funext keyLineValid_eq_amended]

/-- Claim C9 counterexample: for a source file named "GAME.NSZ" (upper-case
suffix, accepted by the case-insensitive dispatch) sitting in the output
directory, `str.replace('.nsz', '.nsp')` changes nothing, the "expected"
output equals the source file itself, and the code reports success even
though no `.nsp` container file exists at all — where the claim requires
failure. -/
theorem spec_C9_counterexample :
    (decompress_nsz true true "/data/GAME.NSZ" "/data"
       (Except.ok ["GAME.NSZ"]) ⟨"/home", ["app"]⟩).1.1 = true
    ∧ decompress_success_claim "GAME.NSZ" ["GAME.NSZ"] = false
    ∧ (["GAME.NSZ"] : List String).any
        (fun f => strEndsWith (strLower f) ".nsp") = false := by
  refine ⟨?_, ?_, ?_⟩ <;> decide

/-- Claim C9 (amended): after the decompression transform runs without
raising, `decompress_nsz` reports success exactly when a file whose name
is the source filename with every case-sensitive occurrence of '.nsz'
replaced by '.nsp' (Python `str.replace`, not a suffix replacement) exists
in the output directory, or, failing that, when any '.nsp'-suffixed
entries exist in the output directory, in which case those are reported as
the artifact list; otherwise it reports failure. -/
theorem spec_C9_decompress_success (path dir : String) (listing : List String)
    (proc : ProcState) (h3 : strEndsWith (strLower path) ".nsz" = true) :
    ((decompress_nsz true true path dir (Except.ok listing) proc).1.1 = true
      ↔ (listing.contains (pyReplace (basename path) ".nsz" ".nsp") = true
         ∨ listing.any (fun f => strEndsWith f ".nsp") = true))
    ∧ (listing.contains (pyReplace (basename path) ".nsz" ".nsp") = false →
       listing.any (fun f => strEndsWith f ".nsp") = true →
       (decompress_nsz true true path dir (Except.ok listing) proc).1.2
         = "Successfully decompressed. Created: "
             ++ joinComma (listing.filter (fun f => strEndsWith f ".nsp"))) := by
  have hred : (decompress_nsz true true path dir (Except.ok listing) proc).1
      = nsz_check_output path dir listing := by
    unfold decompress_nsz
    rw [if_neg (by simp), if_neg (by simp), if_neg (by rw [h3]; simp)]
  rw [hred]
  unfold nsz_check_output
  by_cases hcont : listing.contains (pyReplace (basename path) ".nsz" ".nsp") = true
  · rw [if_pos hcont]
    exact ⟨⟨fun _ => Or.inl hcont, fun _ => rfl⟩,
           fun hc _ => by rw [hcont] at hc; cases hc⟩
  · rw [if_neg hcont]
    by_cases hany : listing.any (fun f => strEndsWith f ".nsp") = true
    · have hne : (listing.filter (fun f => strEndsWith f ".nsp")).isEmpty = false := by
        cases hie : (listing.filter (fun f => strEndsWith f ".nsp")).isEmpty with
        | false => rfl
        | true =>
          have hnil := List.isEmpty_iff.1 hie
          rw [List.filter_eq_nil_iff] at hnil
          rw [List.any_eq_true] at hany
          obtain ⟨f, hf, hfp⟩ := hany
          exact absurd hfp (hnil f hf)
      rw [if_neg (by rw [hne]; exact fun h => Bool.noConfusion h)]
      exact ⟨⟨fun _ => Or.inr hany, fun _ => rfl⟩, fun _ _ => rfl⟩
    · have hemp : (listing.filter (fun f => strEndsWith f ".nsp")).isEmpty = true := by
        cases hie : (listing.filter (fun f => strEndsWith f ".nsp")).isEmpty with
        | true => rfl
        | false =>
          have hne := List.isEmpty_eq_false.1 hie
          rcases List.exists_mem_of_ne_nil _ hne with ⟨f, hf⟩
          have hfp := (List.mem_filter.1 hf).2
          have : listing.any (fun f => strEndsWith f ".nsp") = true :=
            List.any_eq_true.2 ⟨f, (List.mem_filter.1 hf).1, hfp⟩
          exact absurd this hany
      rw [if_pos hemp]
      constructor
      · constructor
        · intro hfalse
          cases hfalse
        · intro hor
          rcases hor with h | h
          · exact absurd h hcont
          · exact absurd h hany
      · intro _ h
        exact absurd h hany

/-- Claim C9 witness: a transform that produced the expected artifact. -/
theorem spec_C9_witness :
    (decompress_nsz true true "/d/a.nsz" "/d"
       (Except.ok ["a.nsp"]) ⟨"/", []⟩).1.1 = true
      ↔ ((["a.nsp"] : List String).contains
            (pyReplace (basename "/d/a.nsz") ".nsz" ".nsp") = true
         ∨ (["a.nsp"] : List String).any (fun f => strEndsWith f ".nsp") = true) :=
  (spec_C9_decompress_success "/d/a.nsz" "/d" ["a.nsp"] ⟨"/", []⟩ (by decide)).1

/-- Claim C10: every call of `decompress_nsz` that passes the availability,
file-existence and suffix pre-checks (so it reaches the decompression
stage, performing `os.chdir`) restores the process working directory and
`sys.argv` to their entry values on the success path, the missing-output
path and the exception path alike (the `finally` block). -/
theorem spec_C10_proc_state_restored (isAvail srcIsFile : Bool) (path dir : String)
    (transform : Except String (List String)) (proc : ProcState)
    (h1 : isAvail = true) (h2 : srcIsFile = true)
    (h3 : strEndsWith (strLower path) ".nsz" = true) :
    (decompress_nsz isAvail srcIsFile path dir transform proc).2 = proc := by
  subst h1
  subst h2
  unfold decompress_nsz
  rw [if_neg (by simp), if_neg (by simp), if_neg (by rw [h3]; simp)]
  cases transform <;> rfl

/-- Claim C10 witness: an exception path with a concrete process state. -/
theorem spec_C10_witness :
    (decompress_nsz true true "/d/a.nsz" "/out"
       (Except.error "boom") ⟨"/home", ["argv0"]⟩).2 = ⟨"/home", ["argv0"]⟩ :=
  spec_C10_proc_state_restored true true "/d/a.nsz" "/out"
    (Except.error "boom") ⟨"/home", ["argv0"]⟩ rfl rfl (by decide)

end RomsDl
